import Mathlib

/-!
Verification of the gridbot trading system core against its specification.

This file gives a shallow embedding of the grid strategy engine: the data
model (orders, grid levels, trading state), the order allocator, the grid
generator, the risk manager, configuration validation, and the execution
engine operations that touch realized P&L, the trade ledger and order
cancellation.  JavaScript numbers are modelled as rationals; a division
whose result would be the JavaScript error values NaN or Infinity
(denominator zero) is modelled as the failure value of an Option-valued
division, so that claims about division-by-zero behaviour are faithful.
-/

namespace Gridbot

/-- Order side, from the `side: 'buy' | 'sell'` union in the types module. -/
inductive Side where
  | buy
  | sell
deriving DecidableEq, Repr

/-- Order lifecycle status, from `status: 'pending' | 'filled' | 'canceled'`. -/
inductive OrdStatus where
  | pending
  | filled
  | canceled
deriving DecidableEq, Repr

/-- Order type enum (`OrderType`): limit or market. -/
inductive OrdType where
  | limit
  | market
deriving DecidableEq, Repr

/-- `GridOrder` record from the types module. -/
structure GridOrder where
  id : String
  price : ℚ
  size : ℚ
  type : OrdType
  side : Side
  status : OrdStatus
  exchangeOrderId : Option String
deriving DecidableEq, Repr

/-- `GridLevel` record: a price point with optional attached orders. -/
structure GridLevel where
  price : ℚ
  buyOrder : Option GridOrder
  sellOrder : Option GridOrder
  isActive : Bool
deriving DecidableEq, Repr

/-- `TradingState` aggregate owned by the execution engine. -/
structure TradingState where
  currentPrice : ℚ
  gridLevels : List GridLevel
  activeOrders : List GridOrder
  filledOrders : List GridOrder
  unrealizedPnL : ℚ
  realizedPnL : ℚ
  currentStopLossLevel : ℚ
deriving DecidableEq, Repr

/-- `HistoricalTrade` ledger record. -/
structure HistoricalTrade where
  timestamp : ℕ
  price : ℚ
  size : ℚ
  side : Side
  gridLevel : ℕ
  profit : ℚ
deriving DecidableEq, Repr

/-- `InvestmentConfig`: total investment and leverage. -/
structure InvestmentConfig where
  totalInvestment : ℚ
  assetPair : String
  leverage : ℚ
deriving DecidableEq, Repr

/-- `OrderAllocationMethod` enum. -/
inductive AllocationMethod where
  | equal
  | weighted
  | custom
deriving DecidableEq, Repr

/-- `OrderConfig`: allocation method, order type and optional custom pattern. -/
structure OrderConfig where
  allocationMethod : AllocationMethod
  orderType : OrdType
  customAllocationPattern : Option (List ℚ)
deriving DecidableEq, Repr

/-- `GridDistributionMethod` enum. -/
inductive DistributionMethod where
  | linear
  | arithmetic
  | geometric
  | volatilityBased
deriving DecidableEq, Repr

/-- `GridConfig`: level count, bounds, auto-range flag, distribution method. -/
structure GridConfig where
  numberOfGrids : ℕ
  upperBound : ℚ
  lowerBound : ℚ
  autoRange : Bool
  distributionMethod : DistributionMethod
deriving DecidableEq, Repr

/-- `StopLossMethod` enum: hard or soft stop-loss execution. -/
inductive StopLossMethod where
  | hard
  | soft
deriving DecidableEq, Repr

/-- `basicStopLoss` section of the risk-management configuration. -/
structure BasicStopLossConfig where
  enabled : Bool
  percentage : ℚ
  method : StopLossMethod
deriving DecidableEq, Repr

/-- `dynamicStopLoss` section of the risk-management configuration. -/
structure DynamicStopLossConfig where
  enabled : Bool
  initialRiskThreshold : ℚ
  expansionFactor : ℚ
  maximumExpansion : ℚ
deriving DecidableEq, Repr

/-- `trailingStopLoss` section of the risk-management configuration. -/
structure TrailingStopLossConfig where
  enabled : Bool
  trailingDistance : ℚ
  activationThreshold : ℚ
  isDiscrete : Bool
deriving DecidableEq, Repr

/-- `RiskManagementConfig`: the three stop-loss variants. -/
structure RiskManagementConfig where
  basicStopLoss : BasicStopLossConfig
  dynamicStopLoss : DynamicStopLossConfig
  trailingStopLoss : TrailingStopLossConfig
deriving DecidableEq, Repr

/-- The part of `TradingBotConfig` read by `validateConfig`. -/
structure TradingBotConfig where
  investment : InvestmentConfig
  grid : GridConfig
  order : OrderConfig
  riskManagement : RiskManagementConfig
deriving DecidableEq, Repr

/-- JavaScript division: a zero denominator yields NaN or Infinity, modelled
as the Option failure value; otherwise exact rational division. -/
def jsDiv (a b : ℚ) : Option ℚ :=
  if b = 0 then none else some (a / b)

/-- Option-valued traversal of a list, propagating a division failure the way
NaN propagates through the JavaScript arithmetic that consumes it. -/
def mapOpt (f : α → Option β) : List α → Option (List β)
  | [] => some []
  | x :: xs => (f x).bind fun y => (mapOpt f xs).map fun ys => y :: ys

/-- `OrderAllocator.calculateEqualAllocation`: splits
`totalInvestment * leverage` evenly across the levels and converts each
per-level amount to base-asset units by dividing by the level price. -/
def calculateEqualAllocation (inv : InvestmentConfig) (gridLevels : List GridLevel) :
    Option (List ℚ × List ℚ) :=
  let adjustedInvestment := inv.totalInvestment * inv.leverage
  (jsDiv adjustedInvestment (gridLevels.length : ℚ)).bind fun investmentPerLevel =>
    (mapOpt (fun level => jsDiv investmentPerLevel level.price) gridLevels).map
      fun buyOrderSizes => (buyOrderSizes, buyOrderSizes)

/-- The triangular weight of level `i` out of `n` in
`OrderAllocator.calculateWeightedAllocation`:
`1 - |i/(n-1) - 0.5| * 2`, computed with the JavaScript division model. -/
def triangularWeight (n i : ℕ) : Option ℚ :=
  (jsDiv (i : ℚ) ((n : ℚ) - 1)).map fun q => 1 - |q - 1/2| * 2

/-- `OrderAllocator.calculateWeightedAllocation`: triangular weights
normalized by their sum, then converted to base-asset order sizes. -/
def calculateWeightedAllocation (inv : InvestmentConfig) (gridLevels : List GridLevel) :
    Option (List ℚ × List ℚ) :=
  let adjustedInvestment := inv.totalInvestment * inv.leverage
  let n := gridLevels.length
  (mapOpt (triangularWeight n) (List.range n)).bind fun weights =>
    let weightSum := weights.sum
    (mapOpt (fun w => jsDiv w weightSum) weights).bind fun normalizedWeights =>
      (mapOpt (fun p => jsDiv (adjustedInvestment * p.2) p.1.price)
          (gridLevels.zip normalizedWeights)).map
        fun orderSizes => (orderSizes, orderSizes)

/-- `OrderAllocator.calculateCustomAllocation`: a missing pattern or a length
mismatch falls back to equal allocation; otherwise the pattern is normalized
by its sum (no zero guard) and converted to base-asset order sizes. -/
def calculateCustomAllocation (ocfg : OrderConfig) (inv : InvestmentConfig)
    (gridLevels : List GridLevel) : Option (List ℚ × List ℚ) :=
  let adjustedInvestment := inv.totalInvestment * inv.leverage
  match ocfg.customAllocationPattern with
  | none => calculateEqualAllocation inv gridLevels
  | some pattern =>
    if pattern.length ≠ gridLevels.length then calculateEqualAllocation inv gridLevels
    else
      let patternSum := pattern.sum
      (mapOpt (fun v => jsDiv v patternSum) pattern).bind fun normalizedPattern =>
        (mapOpt (fun p => jsDiv (adjustedInvestment * p.2) p.1.price)
            (gridLevels.zip normalizedPattern)).map
          fun orderSizes => (orderSizes, orderSizes)

/-- `OrderAllocator.calculateOrderSizes`: dispatch on the allocation method. -/
def calculateOrderSizes (ocfg : OrderConfig) (inv : InvestmentConfig)
    (gridLevels : List GridLevel) : Option (List ℚ × List ℚ) :=
  match ocfg.allocationMethod with
  | .equal => calculateEqualAllocation inv gridLevels
  | .weighted => calculateWeightedAllocation inv gridLevels
  | .custom => calculateCustomAllocation ocfg inv gridLevels

/-- `GridGenerator.generateLinearGrid`: levels at
`lowerBound + step * i` for `i < numberOfGrids` with
`step = (upperBound - lowerBound) / (numberOfGrids - 1)`; each level is
active unless its price is exactly the current price. -/
def generateLinearGrid (cfg : GridConfig) (currentPrice : ℚ) : List GridLevel :=
  let step := (cfg.upperBound - cfg.lowerBound) / ((cfg.numberOfGrids : ℚ) - 1)
  (List.range cfg.numberOfGrids).map fun i : ℕ =>
    { price := cfg.lowerBound + step * (i : ℚ)
      buyOrder := none
      sellOrder := none
      isActive := cfg.lowerBound + step * (i : ℚ) != currentPrice }

/-- The fold inside `GridGenerator.updateGridLevels` that finds the level
closest to the new price, keeping the earlier level on distance ties. -/
def closestLevel (newPrice : ℚ) (first : GridLevel) (rest : List GridLevel) : GridLevel :=
  rest.foldl
    (fun best level => if |newPrice - level.price| < |newPrice - best.price| then level else best)
    first

/-- `GridGenerator.updateGridLevels`: finds the level closest to the new
price and marks every level active except those sharing the closest price. -/
def updateGridLevels (gridLevels : List GridLevel) (newPrice : ℚ) : List GridLevel :=
  match gridLevels with
  | [] => []
  | first :: rest =>
    let closest := closestLevel newPrice first rest
    (first :: rest).map fun level =>
      { level with isActive := level.price != closest.price }

/-- `RiskManager` mutable state: initial reference price, current stop-loss
price, current trailing-stop price, and the profit cached by the last
`updateStopLoss` call. -/
structure RiskState where
  initialPrice : ℚ
  stopLossPrice : Option ℚ
  trailingStopPrice : Option ℚ
  currentProfit : ℚ
deriving DecidableEq, Repr

/-- `RiskManager.calculateBasicStopLossPrice`:
`currentPrice * (1 - percentage / 100)`. -/
def calculateBasicStopLossPrice (cfg : RiskManagementConfig) (currentPrice : ℚ) : ℚ :=
  currentPrice * (1 - cfg.basicStopLoss.percentage / 100)

/-- `RiskManager.calculateDynamicStopLossPrice`: expands the initial risk
threshold by `min (currentProfit * expansionFactor) maximumExpansion`. -/
def calculateDynamicStopLossPrice (cfg : RiskManagementConfig) (currentPrice currentProfit : ℚ) : ℚ :=
  if cfg.dynamicStopLoss.enabled = false then calculateBasicStopLossPrice cfg currentPrice
  else
    let profitExpansion :=
      min (currentProfit * cfg.dynamicStopLoss.expansionFactor) cfg.dynamicStopLoss.maximumExpansion
    currentPrice * (1 - (cfg.dynamicStopLoss.initialRiskThreshold + profitExpansion) / 100)

/-- The opening lines of `RiskManager.updateTrailingStopLoss`: activation is
decided by the price appreciation percentage
`((currentPrice / initialPrice) - 1) * 100`; once activation holds, the
candidate `currentPrice * (1 - trailingDistance / 100)` replaces the
trailing stop only when the latter is null or strictly smaller. -/
def trailingCandidateStep (cfg : RiskManagementConfig) (rs : RiskState) (currentPrice : ℚ) :
    RiskState :=
  let profitPercentage := (currentPrice / rs.initialPrice - 1) * 100
  if cfg.trailingStopLoss.activationThreshold ≤ profitPercentage then
    let newTrailingStop := currentPrice * (1 - cfg.trailingStopLoss.trailingDistance / 100)
    match rs.trailingStopPrice with
    | none => { rs with trailingStopPrice := some newTrailingStop }
    | some t =>
      if t < newTrailingStop then { rs with trailingStopPrice := some newTrailingStop } else rs
  else rs

/-- The closing lines of `updateTrailingStopLoss`: when a trailing stop is
active and larger than (or replaces a null) regular stop price, it becomes
the stop price. -/
def trailingOverrideStep (rs1 : RiskState) : RiskState :=
  match rs1.trailingStopPrice with
  | none => rs1
  | some t =>
    match rs1.stopLossPrice with
    | none => { rs1 with stopLossPrice := some t }
    | some s => if s < t then { rs1 with stopLossPrice := some t } else rs1

/-- `RiskManager.updateTrailingStopLoss`: the candidate/ratchet update
followed by the stop-price override. -/
def updateTrailingStopLoss (cfg : RiskManagementConfig) (rs : RiskState) (currentPrice : ℚ) :
    RiskState :=
  trailingOverrideStep (trailingCandidateStep cfg rs currentPrice)

/-- `RiskManager.updateStopLoss`: caches the current profit, recomputes the
basic and dynamic stop prices when enabled, then runs the trailing update
when enabled.  The returned state's `stopLossPrice` is the method's return
value. -/
def updateStopLoss (cfg : RiskManagementConfig) (rs : RiskState) (ts : TradingState) : RiskState :=
  let rs0 := { rs with currentProfit := ts.unrealizedPnL + ts.realizedPnL }
  let rs1 :=
    if cfg.basicStopLoss.enabled then
      { rs0 with stopLossPrice := some (calculateBasicStopLossPrice cfg ts.currentPrice) }
    else rs0
  let rs2 :=
    if cfg.dynamicStopLoss.enabled then
      { rs1 with
        stopLossPrice :=
          some (calculateDynamicStopLossPrice cfg ts.currentPrice rs1.currentProfit) }
    else rs1
  if cfg.trailingStopLoss.enabled then updateTrailingStopLoss cfg rs2 ts.currentPrice else rs2

/-- `RiskManager.isStopLossTriggered`: true iff a stop price is set and the
current price is at or below it. -/
def isStopLossTriggered (rs : RiskState) (currentPrice : ℚ) : Bool :=
  match rs.stopLossPrice with
  | none => false
  | some s => currentPrice ≤ s

/-- The distinct errors raised by `validateConfig`, one per `throw` site. -/
inductive ConfigError where
  | gridCountTooLow
  | gridCountTooHigh
  | leverageTooLow
  | leverageTooHigh
  | boundsOutOfOrder
  | lowerBoundNonpositive
  | customPatternMissing
  | customPatternLengthMismatch
  | basicPercentageNonpositive
  | dynamicThresholdNonpositive
  | dynamicExpansionFactorNonpositive
  | dynamicMaximumExpansionNonpositive
  | trailingDistanceNonpositive
  | trailingActivationNegative
deriving DecidableEq, Repr

/-- `validateConfig` from the configuration module: the checks in source
order.  Note the final check rejects only a strictly negative trailing
activation threshold. -/
def validateConfig (cfg : TradingBotConfig) : Except ConfigError Unit :=
  if cfg.grid.numberOfGrids < 5 then .error .gridCountTooLow
  else if 200 < cfg.grid.numberOfGrids then .error .gridCountTooHigh
  else if cfg.investment.leverage < 1 then .error .leverageTooLow
  else if 100 < cfg.investment.leverage then .error .leverageTooHigh
  else if cfg.grid.autoRange = false ∧ cfg.grid.upperBound ≤ cfg.grid.lowerBound then
    .error .boundsOutOfOrder
  else if cfg.grid.autoRange = false ∧ cfg.grid.lowerBound ≤ 0 then
    .error .lowerBoundNonpositive
  else if cfg.order.allocationMethod = .custom ∧
      (cfg.order.customAllocationPattern = none ∨
        cfg.order.customAllocationPattern.any fun p => p.length = 0) then
    .error .customPatternMissing
  else if cfg.order.allocationMethod = .custom ∧
      ¬ (cfg.order.customAllocationPattern.all fun p => p.length = cfg.grid.numberOfGrids) then
    .error .customPatternLengthMismatch
  else if cfg.riskManagement.basicStopLoss.enabled ∧
      cfg.riskManagement.basicStopLoss.percentage ≤ 0 then
    .error .basicPercentageNonpositive
  else if cfg.riskManagement.dynamicStopLoss.enabled ∧
      cfg.riskManagement.dynamicStopLoss.initialRiskThreshold ≤ 0 then
    .error .dynamicThresholdNonpositive
  else if cfg.riskManagement.dynamicStopLoss.enabled ∧
      cfg.riskManagement.dynamicStopLoss.expansionFactor ≤ 0 then
    .error .dynamicExpansionFactorNonpositive
  else if cfg.riskManagement.dynamicStopLoss.enabled ∧
      cfg.riskManagement.dynamicStopLoss.maximumExpansion ≤ 0 then
    .error .dynamicMaximumExpansionNonpositive
  else if cfg.riskManagement.trailingStopLoss.enabled ∧
      cfg.riskManagement.trailingStopLoss.trailingDistance ≤ 0 then
    .error .trailingDistanceNonpositive
  else if cfg.riskManagement.trailingStopLoss.enabled ∧
      cfg.riskManagement.trailingStopLoss.activationThreshold < 0 then
    .error .trailingActivationNegative
  else .ok ()

/-- The opposite of an order side. -/
def oppositeSide : Side → Side
  | .buy => .sell
  | .sell => .buy

/-- `ExecutionEngine.calculateRealizedPnL`: for each newly filled order, pair
with the most recent previously filled order at the same price with the
opposite side, and sum the signed price differences times size.  The ledger
argument is `tradingState.filledOrders` after the new fills were appended,
exactly as the method reads it. -/
def realizedPnLDelta (ledger : List GridOrder) (filledOrders : List GridOrder) : ℚ :=
  (filledOrders.map fun filledOrder =>
    let previousOppositeOrders :=
      ledger.filter fun o => o.price == filledOrder.price && !(o.side == filledOrder.side)
    match previousOppositeOrders.getLast? with
    | none => 0
    | some oppositeOrder =>
      if filledOrder.side = .sell ∧ oppositeOrder.side = .buy then
        (filledOrder.price - oppositeOrder.price) * filledOrder.size
      else if filledOrder.side = .buy ∧ oppositeOrder.side = .sell then
        (oppositeOrder.price - filledOrder.price) * filledOrder.size
      else 0).sum

/-- The profit computed by `ExecutionEngine.recordTrade`: the last
previously filled opposite-side order at the same price, signed by side. -/
def recordTradeProfit (ledger : List GridOrder) (order : GridOrder) : ℚ :=
  let oppositeOrders :=
    ledger.filter fun o => o.price == order.price && !(o.side == order.side)
  match oppositeOrders.getLast? with
  | none => 0
  | some oppositeOrder =>
    if order.side = .sell then (order.price - oppositeOrder.price) * order.size
    else (oppositeOrder.price - order.price) * order.size

/-- `ExecutionEngine.recordTrade`: the appended `HistoricalTrade` record. -/
def recordTrade (now : ℕ) (ledger : List GridOrder) (order : GridOrder) (gridLevelIndex : ℕ) :
    HistoricalTrade :=
  { timestamp := now
    price := order.price
    size := order.size
    side := order.side
    gridLevel := gridLevelIndex
    profit := recordTradeProfit ledger order }

/-- Whether a grid level carries the order with the given id as its pending
buy or sell order (the `findIndex` predicate in `processFilledOrders`). -/
def levelHoldsOrder (orderId : String) (level : GridLevel) : Bool :=
  (match level.buyOrder with
   | some b => b.id == orderId
   | none => false) ||
  (match level.sellOrder with
   | some s => s.id == orderId
   | none => false)

/-- The per-fill loop of `ExecutionEngine.processFilledOrders`: find the grid
level of the fill, create and place the opposite order (placement may fail,
modelled by the `place` oracle returning `none`; the failure is caught and
the fill is skipped), attach the placed order to the level, and record a
historical trade. -/
def placeOppositeOrders (place : GridOrder → Option String) (now : ℕ)
    (ledger : List GridOrder) :
    List GridOrder → List GridLevel → List GridOrder → List HistoricalTrade →
    List GridLevel × List GridOrder × List HistoricalTrade
  | [], levels, newOrders, trades => (levels, newOrders, trades)
  | filledOrder :: rest, levels, newOrders, trades =>
    match levels.findIdx? (levelHoldsOrder filledOrder.id) with
    | none => placeOppositeOrders place now ledger rest levels newOrders trades
    | some gridLevelIndex =>
      match levels[gridLevelIndex]? with
      | none => placeOppositeOrders place now ledger rest levels newOrders trades
      | some gridLevel =>
        let side2 := oppositeSide filledOrder.side
        let newOrder : GridOrder :=
          { id := filledOrder.id ++ ("-opposite")
            price := gridLevel.price
            size := filledOrder.size
            type := filledOrder.type
            side := side2
            status := .pending
            exchangeOrderId := none }
        match place newOrder with
        | none => placeOppositeOrders place now ledger rest levels newOrders trades
        | some exchangeOrderId =>
          let placed := { newOrder with exchangeOrderId := some exchangeOrderId }
          let updatedLevel :=
            match side2 with
            | .buy => { gridLevel with buyOrder := some placed, sellOrder := none }
            | .sell => { gridLevel with sellOrder := some placed, buyOrder := none }
          placeOppositeOrders place now ledger rest (levels.set gridLevelIndex updatedLevel)
            (newOrders ++ [placed]) (trades ++ [recordTrade now ledger filledOrder gridLevelIndex])

/-- `ExecutionEngine.processFilledOrders`: remove the fills from the active
orders, append them to the filled ledger, add the realized P&L delta, run
the opposite-order loop, and append the new orders to the active set. -/
def processFilledOrders (place : GridOrder → Option String) (now : ℕ) (st : TradingState)
    (trades : List HistoricalTrade) (filledOrders : List GridOrder) :
    TradingState × List HistoricalTrade :=
  let active1 := st.activeOrders.filter fun o => !(filledOrders.any fun f => f.id == o.id)
  let ledger1 := st.filledOrders ++ filledOrders
  let pnl1 := st.realizedPnL + realizedPnLDelta ledger1 filledOrders
  let r := placeOppositeOrders place now ledger1 filledOrders st.gridLevels [] []
  ({ st with
      activeOrders := active1 ++ r.2.1
      filledOrders := ledger1
      realizedPnL := pnl1
      gridLevels := r.1 },
    trades ++ r.2.2)

/-- `ExecutionEngine.checkOrderFills`: poll every active order that has an
exchange id; the `fill` oracle answers whether the exchange reports it
filled (polling errors and still-pending orders alike contribute nothing). -/
def checkOrderFills (fill : String → Bool) (activeOrders : List GridOrder) : List GridOrder :=
  activeOrders.filterMap fun o =>
    match o.exchangeOrderId with
    | none => none
    | some eid => if fill eid then some { o with status := .filled } else none

/-- `ExecutionEngine.calculateUnrealizedPnL`: mark-to-market of the pending
active orders against the current price. -/
def calcUnrealizedPnL (st : TradingState) : ℚ :=
  ((st.activeOrders.filter fun o => o.status == OrdStatus.pending).map fun o =>
    match o.side with
    | .buy => (st.currentPrice - o.price) * o.size
    | .sell => (o.price - st.currentPrice) * o.size).sum

/-- The sell-order half of one iteration of
`ExecutionEngine.placeGridOrders`: place the level's pending sell order if
present; a placement failure is caught and yields nothing. -/
def placeSellIfPending (place : GridOrder → Option String) (level : GridLevel) :
    List GridOrder :=
  match level.sellOrder with
  | none => []
  | some so =>
    if so.status = .pending then
      match place so with
      | none => []
      | some eid => [{ so with exchangeOrderId := some eid }]
    else []

/-- One iteration of `ExecutionEngine.placeGridOrders`: skip inactive
levels; place the pending buy order, then the pending sell order.  A buy
placement failure aborts the level (the sell is not attempted); a sell
placement failure keeps the already placed buy. -/
def placeLevelOrders (place : GridOrder → Option String) (level : GridLevel) :
    List GridOrder :=
  if level.isActive = false then []
  else
    match level.buyOrder with
    | none => placeSellIfPending place level
    | some bo =>
      if bo.status = .pending then
        match place bo with
        | none => []
        | some eid => { bo with exchangeOrderId := some eid } :: placeSellIfPending place level
      else placeSellIfPending place level

/-- The loop of `ExecutionEngine.cancelAllOrders`: cancel each active order
that has an exchange id; the first failing cancellation raises. -/
def cancelLoop (fails : String → Bool) : List GridOrder → Except Unit Unit
  | [] => .ok ()
  | o :: rest =>
    match o.exchangeOrderId with
    | none => cancelLoop fails rest
    | some eid => if fails eid then .error () else cancelLoop fails rest

/-- `ExecutionEngine.cancelAllOrders`: the whole loop runs inside a single
try/catch whose handler rethrows, so the active-order list is cleared only
when every cancellation succeeded; on a failure the error propagates and the
trading state is left unchanged. -/
def cancelAllOrders (fails : String → Bool) (st : TradingState) : Except Unit TradingState :=
  match cancelLoop fails st.activeOrders with
  | .error e => .error e
  | .ok _ => .ok { st with activeOrders := [] }

/-- The `ExecutionEngine` fields the realized-P&L claims range over. -/
structure EngineState where
  tradingState : TradingState
  historicalTrades : List HistoricalTrade
  priceHistory : List ℚ
deriving Repr

/-- `ExecutionEngine.initialize`: fetch the price, place every pending order
attached to an active level, and merge the placed orders into the active
set.  The realized P&L and the trade ledger are untouched. -/
def initEngine (price : ℚ) (place : GridOrder → Option String) (es : EngineState) : EngineState :=
  let st0 := { es.tradingState with currentPrice := price }
  let placed := (st0.gridLevels.map (placeLevelOrders place)).flatten
  let active1 :=
    (st0.activeOrders.filter fun o => !(placed.any fun p => p.id == o.id)) ++ placed
  let st1 := { st0 with activeOrders := active1 }
  let st2 := { st1 with unrealizedPnL := calcUnrealizedPnL st1 }
  { tradingState := st2
    historicalTrades := es.historicalTrades
    priceHistory := es.priceHistory ++ [price] }

/-- `ExecutionEngine.updateMarketData`: fetch the price, collect the fills,
process them when there are any, and recompute the unrealized P&L. -/
def updateMarketData (price : ℚ) (fill : String → Bool) (place : GridOrder → Option String)
    (now : ℕ) (es : EngineState) : EngineState :=
  let st0 := { es.tradingState with currentPrice := price }
  let filledOrders := checkOrderFills fill st0.activeOrders
  let pr :=
    if filledOrders.isEmpty then (st0, es.historicalTrades)
    else processFilledOrders place now st0 es.historicalTrades filledOrders
  let st2 := { pr.1 with unrealizedPnL := calcUnrealizedPnL pr.1 }
  { tradingState := st2
    historicalTrades := pr.2
    priceHistory := es.priceHistory ++ [price] }

/-- The engine operations that drive a trading session, each carrying the
exchange responses it consumes. -/
inductive EngineEvent where
  | initOp (price : ℚ) (place : GridOrder → Option String)
  | marketOp (price : ℚ) (fill : String → Bool) (place : GridOrder → Option String) (now : ℕ)

/-- Apply one engine operation. -/
def stepEngine (es : EngineState) : EngineEvent → EngineState
  | .initOp price place => initEngine price place es
  | .marketOp price fill place now => updateMarketData price fill place now es

/-- Run a sequence of engine operations. -/
def runEngine (es : EngineState) (evs : List EngineEvent) : EngineState :=
  evs.foldl stepEngine es

/-- A pending buy order resting on the exchange, used in concrete runs. -/
def ordBuy90 : GridOrder :=
  { id := ("b90")
    price := 90
    size := 2
    type := .limit
    side := .buy
    status := .pending
    exchangeOrderId := some ("x90") }

/-- A pending sell order resting on the exchange, used in concrete runs. -/
def ordSell110 : GridOrder :=
  { id := ("s110")
    price := 110
    size := 1
    type := .limit
    side := .sell
    status := .pending
    exchangeOrderId := some ("x110") }

/-- A trading state with two live exchange orders. -/
def exStTwoOrders : TradingState :=
  { currentPrice := 100
    gridLevels :=
      [ { price := 90, buyOrder := some ordBuy90, sellOrder := none, isActive := true }
      , { price := 110, buyOrder := none, sellOrder := some ordSell110, isActive := true } ]
    activeOrders := [ordBuy90, ordSell110]
    filledOrders := []
    unrealizedPnL := 0
    realizedPnL := 0
    currentStopLossLevel := 0 }

/-- An exchange on which every cancellation fails. -/
def cancelAlwaysFails : String → Bool := fun _ => true

/-- An exchange on which every cancellation succeeds. -/
def cancelNeverFails : String → Bool := fun _ => false

/-- A risk configuration with only the trailing stop-loss enabled
(distance 2%, activation threshold 1). -/
def riskCfgTrailing : RiskManagementConfig :=
  { basicStopLoss := { enabled := false, percentage := 5, method := .hard }
    dynamicStopLoss :=
      { enabled := false, initialRiskThreshold := 3, expansionFactor := 1/2
        maximumExpansion := 10 }
    trailingStopLoss :=
      { enabled := true, trailingDistance := 2, activationThreshold := 1
        isDiscrete := false } }

/-- A fresh risk state anchored at an initial price of 100. -/
def riskStFresh : RiskState :=
  { initialPrice := 100, stopLossPrice := none, trailingStopPrice := none, currentProfit := 0 }

/-- A trading state whose unrealized profit is large while the price has not
appreciated at all over the initial price of 100. -/
def tsProfitNoMove : TradingState :=
  { currentPrice := 100
    gridLevels := []
    activeOrders := []
    filledOrders := []
    unrealizedPnL := 1000
    realizedPnL := 0
    currentStopLossLevel := 0 }

/-- A trading state at price 110 used to exercise the trailing ratchet. -/
def tsPrice110 : TradingState :=
  { currentPrice := 110
    gridLevels := []
    activeOrders := []
    filledOrders := []
    unrealizedPnL := 0
    realizedPnL := 0
    currentStopLossLevel := 0 }

/-- A bare grid level at a given price with no orders attached. -/
def bareLevel (p : ℚ) : GridLevel :=
  { price := p, buyOrder := none, sellOrder := none, isActive := true }

/-- Two grid levels sharing the same price. -/
def duplicatePriceLevels : List GridLevel := [bareLevel 100, bareLevel 100]

/-- The five-level price ladder 90, 95, 100, 105, 110 from the spec
scenarios. -/
def ladderLevels : List GridLevel :=
  [bareLevel 90, bareLevel 95, bareLevel 100, bareLevel 105, bareLevel 110]

/-- Three bare levels used by the allocation counterexamples. -/
def threeLevels : List GridLevel := [bareLevel 90, bareLevel 100, bareLevel 110]

/-- Two bare levels used by the weighted-allocation counterexample. -/
def twoLevels : List GridLevel := [bareLevel 90, bareLevel 110]

/-- Investment of 1000 at leverage 1, from the spec scenarios. -/
def invEx : InvestmentConfig :=
  { totalInvestment := 1000, assetPair := ("BTC,USD"), leverage := 1 }

/-- A linear five-level grid configuration with bounds 90 and 110. -/
def gridCfgLinear5 : GridConfig :=
  { numberOfGrids := 5, upperBound := 110, lowerBound := 90, autoRange := false
    distributionMethod := .linear }

/-- An order configuration using the custom allocation method with the
all-zero pattern of length three. -/
def orderCfgZeroPattern : OrderConfig :=
  { allocationMethod := .custom, orderType := .limit
    customAllocationPattern := some [0, 0, 0] }

/-- A full bot configuration that passes every check before the stop-loss
section and carries a trailing stop-loss with activation threshold zero. -/
def botCfgTrailingZero : TradingBotConfig :=
  { investment := { totalInvestment := 10000, assetPair := ("BTC,USD"), leverage := 1 }
    grid :=
      { numberOfGrids := 20, upperBound := 0, lowerBound := 0, autoRange := true
        distributionMethod := .linear }
    order :=
      { allocationMethod := .equal, orderType := .limit, customAllocationPattern := none }
    riskManagement :=
      { basicStopLoss := { enabled := true, percentage := 5, method := .hard }
        dynamicStopLoss :=
          { enabled := true, initialRiskThreshold := 3, expansionFactor := 1/2
            maximumExpansion := 10 }
        trailingStopLoss :=
          { enabled := true, trailingDistance := 2, activationThreshold := 0
            isDiscrete := false } } }

/-- An engine state over `exStTwoOrders` with an empty trade ledger. -/
def engineStart : EngineState :=
  { tradingState := exStTwoOrders
    historicalTrades := []
    priceHistory := [100] }

/-- An exchange-response script: the buy order fills, and every placement
succeeds under a fixed id. -/
def buyFillScript : List EngineEvent :=
  [ EngineEvent.marketOp 95 (fun eid => eid == ("x90")) (fun o => some (o.id ++ ("-x"))) 7
  , EngineEvent.marketOp 101 (fun eid => eid == ("b90-opposite-x")) (fun o => some (o.id ++ ("-x"))) 9 ]

/-- Closed form of `triangularWeight n i` when `n ≥ 2`. -/
def triW (n i : ℕ) : ℚ :=
  1 - |(i : ℚ) / ((n : ℚ) - 1) - 1/2| * 2

/-- An order configuration using the custom allocation method with a
pattern of length three summing to a nonzero value. -/
def orderCfgGoodPattern : OrderConfig :=
  { allocationMethod := .custom, orderType := .limit
    customAllocationPattern := some [1, 2, 1] }

/-- A risk state whose trailing stop has already activated at 97. -/
def riskStActive : RiskState :=
  { initialPrice := 100, stopLossPrice := none, trailingStopPrice := some 97
    currentProfit := 0 }

theorem jsDiv_of_ne (a : ℚ) {b : ℚ} (h : b ≠ 0) : jsDiv a b = some (a / b) := by
  simp [jsDiv, h]

theorem mapOpt_eq_map {α β : Type} {f : α → Option β} {g : α → β} :
    ∀ {l : List α}, (∀ x ∈ l, f x = some (g x)) → mapOpt f l = some (l.map g) := by
  intro l
  induction l with
  | nil => intro _; rfl
  | cons x xs ih =>
    intro h
    have hx := h x (by simp)
    have hxs := ih fun y hy => h y (by simp [hy])
    simp [mapOpt, hx, hxs]

theorem cancelLoop_ok_iff (fails : String → Bool) :
    ∀ l : List GridOrder,
      cancelLoop fails l = .ok () ↔
        ∀ o ∈ l, ∀ eid, o.exchangeOrderId = some eid → fails eid = false := by
  intro l
  induction l with
  | nil => simp [cancelLoop]
  | cons o rest ih =>
    cases h : o.exchangeOrderId with
    | none => simp [cancelLoop, h, ih]
    | some eid =>
      cases hf : fails eid with
      | true => simp [cancelLoop, h, hf]
      | false =>
        simp only [cancelLoop, h, hf, if_neg Bool.false_ne_true, ih,
          List.forall_mem_cons]
        constructor
        · intro hr
          refine ⟨fun eid2 he2 => ?_, hr⟩
          rw [Option.some_inj] at he2
          rw [← he2]
          exact hf
        · intro ⟨_, hr⟩
          exact hr

/-- Claim C1: the spec says `cancelAllOrders` is best-effort — every active
order is attempted, per-order failures are logged but not propagated, and
the active-order list is cleared regardless.  In the code the whole loop sits
in a single try/catch whose handler rethrows, so this fails: with every
cancellation failing, the call raises and no cleared state is produced. -/
theorem C1_counterexample :
    ¬ ∃ st2, cancelAllOrders cancelAlwaysFails exStTwoOrders = Except.ok st2 ∧
      st2.activeOrders = [] := by
  intro h
  obtain ⟨st2, h1, _⟩ := h
  have he : cancelAllOrders cancelAlwaysFails exStTwoOrders = Except.error () := rfl
  rw [he] at h1
  exact Except.noConfusion h1

/-- Claim C1 (amended): `cancelAllOrders` clears the active-order list iff
every active order's cancellation succeeds (orders without an exchange id
are skipped); as soon as one cancellation fails, the loop aborts, the error
propagates to the caller (`TradingBot.stop` catches and logs it, so shutdown
continues), and the trading state — its active-order list included — is left
unchanged. -/
theorem C1_cancel_clears_iff_no_failure (fails : String → Bool) (st : TradingState) :
    (cancelAllOrders fails st = Except.ok { st with activeOrders := [] } ↔
      ∀ o ∈ st.activeOrders, ∀ eid, o.exchangeOrderId = some eid → fails eid = false)
    ∧ ((¬ ∀ o ∈ st.activeOrders, ∀ eid, o.exchangeOrderId = some eid → fails eid = false) →
      cancelAllOrders fails st = Except.error ()) := by
  have hiff := cancelLoop_ok_iff fails st.activeOrders
  constructor
  · rw [← hiff]
    unfold cancelAllOrders
    cases hc : cancelLoop fails st.activeOrders with
    | error e => cases e; simp
    | ok u => cases u; simp
  · intro h
    rw [← hiff] at h
    unfold cancelAllOrders
    cases hc : cancelLoop fails st.activeOrders with
    | error e => cases e; simp
    | ok u => cases u; exact absurd hc h

/-- Witness for C1: with no failing cancellation on a two-order state, the
call returns the state with the active-order list cleared. -/
theorem C1_witness :
    cancelAllOrders cancelNeverFails exStTwoOrders =
      Except.ok { exStTwoOrders with activeOrders := [] } :=
  (C1_cancel_clears_iff_no_failure cancelNeverFails exStTwoOrders).1.mpr
    (fun _o _ho _eid _he => rfl)

theorem sum_sizes_mul_price (c : ℚ) :
    ∀ levels : List GridLevel, (∀ lv ∈ levels, lv.price ≠ 0) →
      (((levels.map fun lv => c / lv.price).zip levels).map fun p => p.1 * p.2.price).sum =
        (levels.length : ℚ) * c := by
  intro levels
  induction levels with
  | nil => intro _; simp
  | cons lv rest ih =>
    intro h
    have hlv : lv.price ≠ 0 := h lv (by simp)
    have hrest := ih fun x hx => h x (by simp [hx])
    simp only [List.map_cons, List.zip_cons_cons, List.sum_cons, hrest, List.length_cons]
    rw [div_mul_cancel₀ c hlv]
    push_cast
    ring

/-- Claim C5: under equal allocation with `n ≥ 1` positive-price levels,
every level's buy and sell size equals
`(totalInvestment * leverage / n) / levelPrice`, and the sizes conserve
capital: the sum of `size * price` over the levels is exactly
`totalInvestment * leverage`. -/
theorem C5_equal_allocation_conserves_capital (inv : InvestmentConfig)
    (levels : List GridLevel) (hne : levels ≠ [])
    (hp : ∀ lv ∈ levels, 0 < lv.price) :
    ∃ bs, calculateEqualAllocation inv levels = some (bs, bs) ∧
      bs = levels.map
        (fun lv => inv.totalInvestment * inv.leverage / (levels.length : ℚ) / lv.price) ∧
      ((bs.zip levels).map fun p => p.1 * p.2.price).sum =
        inv.totalInvestment * inv.leverage := by
  have hlen : (levels.length : ℚ) ≠ 0 := by
    have : levels.length ≠ 0 := fun h => hne (List.length_eq_zero.mp h)
    exact_mod_cast this
  have hp2 : ∀ lv ∈ levels, lv.price ≠ 0 := fun lv hlv => ne_of_gt (hp lv hlv)
  have hmap :
      mapOpt
          (fun level =>
            jsDiv (inv.totalInvestment * inv.leverage / (levels.length : ℚ)) level.price)
          levels =
        some (levels.map
          fun lv => inv.totalInvestment * inv.leverage / (levels.length : ℚ) / lv.price) :=
    mapOpt_eq_map fun lv hlv => jsDiv_of_ne _ (hp2 lv hlv)
  refine
    ⟨levels.map fun lv => inv.totalInvestment * inv.leverage / (levels.length : ℚ) / lv.price,
      ?_, rfl, ?_⟩
  · simp only [calculateEqualAllocation]
    rw [jsDiv_of_ne _ hlen]
    simp [hmap]
  · rw [sum_sizes_mul_price _ levels hp2, mul_comm, div_mul_cancel₀ _ hlen]

/-- Witness for C5: the spec scenario — investment 1000, leverage 1, five
levels at 90, 95, 100, 105, 110. -/
theorem C5_witness :
    ∃ bs, calculateEqualAllocation invEx ladderLevels = some (bs, bs) ∧
      bs = ladderLevels.map
        (fun lv => invEx.totalInvestment * invEx.leverage / (ladderLevels.length : ℚ) / lv.price) ∧
      ((bs.zip ladderLevels).map fun p => p.1 * p.2.price).sum =
        invEx.totalInvestment * invEx.leverage :=
  C5_equal_allocation_conserves_capital invEx ladderLevels (by simp [ladderLevels])
    (by norm_num [ladderLevels, bareLevel])

/-- Claim C10: `calculateCustomAllocation` normalizes the custom pattern by
its sum with no zero guard.  For a correct-length pattern with nonzero sum
(and nonzero level prices) every order size is well defined, while the
all-zero pattern of matching length drives the public `calculateOrderSizes`
entry point into the division-by-zero failure. -/
theorem C10_custom_normalization_no_zero_guard :
    (∀ (ocfg : OrderConfig) (inv : InvestmentConfig) (levels : List GridLevel) (pat : List ℚ),
      ocfg.allocationMethod = .custom →
      ocfg.customAllocationPattern = some pat →
      pat.length = levels.length →
      pat.sum ≠ 0 →
      (∀ lv ∈ levels, lv.price ≠ 0) →
      ∃ bs, calculateOrderSizes ocfg inv levels = some (bs, bs))
    ∧ calculateOrderSizes orderCfgZeroPattern invEx threeLevels = none := by
  constructor
  · intro ocfg inv levels pat hmethod hpat hlen hsum hp
    have hnorm :
        mapOpt (fun v => jsDiv v pat.sum) pat = some (pat.map fun v => v / pat.sum) :=
      mapOpt_eq_map fun v _ => jsDiv_of_ne v hsum
    have hsizes :
        mapOpt (fun p => jsDiv (inv.totalInvestment * inv.leverage * p.2) p.1.price)
            (levels.zip (pat.map fun v => v / pat.sum)) =
          some ((levels.zip (pat.map fun v => v / pat.sum)).map
            fun p => inv.totalInvestment * inv.leverage * p.2 / p.1.price) :=
      mapOpt_eq_map fun p hpmem =>
        jsDiv_of_ne _ (hp p.1 (List.of_mem_zip hpmem).1)
    refine
      ⟨(levels.zip (pat.map fun v => v / pat.sum)).map
          fun p => inv.totalInvestment * inv.leverage * p.2 / p.1.price, ?_⟩
    simp only [calculateOrderSizes, hmethod, calculateCustomAllocation, hpat]
    rw [if_neg (by simp [hlen])]
    simp [hnorm, hsizes]
  · simp [calculateOrderSizes, orderCfgZeroPattern, calculateCustomAllocation, threeLevels,
      bareLevel, mapOpt, jsDiv]

/-- Witness for C10: a length-three pattern summing to 4 on three
positive-price levels yields well-defined sizes. -/
theorem C10_witness :
    ∃ bs, calculateOrderSizes orderCfgGoodPattern invEx threeLevels = some (bs, bs) :=
  C10_custom_normalization_no_zero_guard.1 orderCfgGoodPattern invEx threeLevels [1, 2, 1]
    rfl rfl (by simp [threeLevels]) (by norm_num) (by norm_num [threeLevels, bareLevel])

theorem triangularWeight_eq (n : ℕ) (i : ℕ) (hn : 2 ≤ n) :
    triangularWeight n i = some (triW n i) := by
  have h1 : (1:ℚ) < (n:ℚ) := by exact_mod_cast hn
  have hne : ((n:ℚ) - 1) ≠ 0 := by linarith
  simp [triangularWeight, triW, jsDiv_of_ne _ hne]

theorem triW_zero (n : ℕ) : triW n 0 = 0 := by
  have habs : |(0:ℚ)/((n:ℚ) - 1) - 1/2| = 1/2 := by
    rw [zero_div, zero_sub, abs_neg, abs_of_pos (by norm_num : (0:ℚ) < 1/2)]
  unfold triW
  rw [Nat.cast_zero, habs]
  norm_num

theorem triW_last (n : ℕ) (hn : 2 ≤ n) : triW n (n - 1) = 0 := by
  have h1 : (1:ℚ) < (n:ℚ) := by exact_mod_cast hn
  have hne : ((n:ℚ) - 1) ≠ 0 := by linarith
  have hcast : ((n - 1 : ℕ) : ℚ) = (n:ℚ) - 1 := by
    rw [Nat.cast_sub (le_trans one_le_two hn)]
    simp
  unfold triW
  rw [hcast, div_self hne,
    show |(1:ℚ) - 1/2| = 1/2 by rw [abs_of_pos] <;> norm_num]
  norm_num

theorem triW_nonneg (n i : ℕ) (hn : 2 ≤ n) (hi : i < n) : 0 ≤ triW n i := by
  have h1 : (1:ℚ) < (n:ℚ) := by exact_mod_cast hn
  have hpos : (0:ℚ) < (n:ℚ) - 1 := by linarith
  have hx0 : (0:ℚ) ≤ (i:ℚ) / ((n:ℚ) - 1) := div_nonneg (by positivity) (le_of_lt hpos)
  have hile : (i:ℚ) ≤ (n:ℚ) - 1 := by
    have hi2 : i ≤ n - 1 := Nat.le_sub_one_of_lt hi
    have := (Nat.cast_le (α := ℚ)).mpr hi2
    rw [Nat.cast_sub (le_trans one_le_two hn)] at this
    simpa using this
  have hx1 : (i:ℚ) / ((n:ℚ) - 1) ≤ 1 := by
    rw [div_le_one hpos]
    linarith
  have habs : |(i:ℚ)/((n:ℚ) - 1) - 1/2| ≤ 1/2 := by
    rw [abs_le]
    constructor <;> linarith
  unfold triW
  linarith

theorem triW_one_pos (n : ℕ) (hn : 3 ≤ n) : 0 < triW n 1 := by
  have h3 : (3:ℚ) ≤ (n:ℚ) := by exact_mod_cast hn
  have hpos : (0:ℚ) < (n:ℚ) - 1 := by linarith
  have hx0 : (0:ℚ) < 1 / ((n:ℚ) - 1) := by positivity
  have hx1 : (1:ℚ) / ((n:ℚ) - 1) ≤ 1/2 := by
    rw [div_le_iff₀ hpos]
    linarith
  have habs : |(1:ℚ)/((n:ℚ) - 1) - 1/2| < 1/2 := by
    rw [abs_lt]
    constructor <;> linarith
  simp only [triW, Nat.cast_one]
  linarith

theorem weights_sum_pos (n : ℕ) (hn : 3 ≤ n) :
    0 < ((List.range n).map (triW n)).sum := by
  have hmem : triW n 1 ∈ (List.range n).map (triW n) :=
    List.mem_map_of_mem _ (List.mem_range.mpr (by omega))
  have hnonneg : ∀ x ∈ (List.range n).map (triW n), 0 ≤ x := by
    intro x hx
    obtain ⟨i, hi, rfl⟩ := List.mem_map.mp hx
    exact triW_nonneg n i (by omega) (List.mem_range.mp hi)
  have hle := List.single_le_sum hnonneg _ hmem
  have h1 := triW_one_pos n hn
  linarith

theorem weighted_allocation_none_of_two (inv : InvestmentConfig) (levels : List GridLevel)
    (h2 : levels.length = 2) : calculateWeightedAllocation inv levels = none := by
  have hW1 : triW 2 1 = 0 := by
    have := triW_last 2 (by norm_num)
    simpa using this
  have t0 : triangularWeight 2 0 = some 0 := by
    rw [triangularWeight_eq 2 0 (by norm_num), triW_zero]
  have t1 : triangularWeight 2 1 = some 0 := by
    rw [triangularWeight_eq 2 1 (by norm_num), hW1]
  have e : mapOpt (triangularWeight 2) (List.range 2) = some [0, 0] := by
    rw [show List.range 2 = [0, 1] from rfl]
    simp [mapOpt, t0, t1]
  simp only [calculateWeightedAllocation, h2]
  rw [e]
  simp [mapOpt, jsDiv]

/-- Claim C9: the triangular weight is 0 at both edges, and the claim
concludes that for every grid of `n ≥ 2` levels both edge levels receive
order size 0.  At `n = 2` both weights are 0, their sum is 0, and the
normalization divides by zero, so the allocation produces no well-defined
sizes at all — the edge sizes are not 0. -/
theorem C9_counterexample :
    ¬ ∃ bs ss, calculateWeightedAllocation invEx twoLevels = some (bs, ss) ∧
      bs[0]? = some 0 ∧ bs[twoLevels.length - 1]? = some 0 := by
  intro h
  obtain ⟨bs, ss, h1, _⟩ := h
  rw [weighted_allocation_none_of_two invEx twoLevels (by simp [twoLevels])] at h1
  exact Option.noConfusion h1

/-- Claim C9 (amended): for every grid of `n ≥ 3` levels with nonzero
prices, the weighted allocation is well defined and both edge levels receive
order size exactly 0 — no capital at all, not merely less than central
levels.  (At `n = 2` the weight sum is 0 and the normalization divides by
zero.) -/
theorem C9_weighted_edges_get_zero (inv : InvestmentConfig) (levels : List GridLevel)
    (hn : 3 ≤ levels.length) (hp : ∀ lv ∈ levels, lv.price ≠ 0) :
    ∃ bs, calculateWeightedAllocation inv levels = some (bs, bs) ∧
      bs.length = levels.length ∧ bs[0]? = some 0 ∧ bs[levels.length - 1]? = some 0 := by
  have hn2 : 2 ≤ levels.length := by omega
  have hw : mapOpt (triangularWeight levels.length) (List.range levels.length) =
      some ((List.range levels.length).map (triW levels.length)) :=
    mapOpt_eq_map fun i _ => triangularWeight_eq _ i hn2
  have hsumpos := weights_sum_pos levels.length hn
  have hsumne : ((List.range levels.length).map (triW levels.length)).sum ≠ 0 :=
    ne_of_gt hsumpos
  have hnorm : mapOpt
        (fun w => jsDiv w ((List.range levels.length).map (triW levels.length)).sum)
        ((List.range levels.length).map (triW levels.length)) =
      some (((List.range levels.length).map (triW levels.length)).map
        fun w => w / ((List.range levels.length).map (triW levels.length)).sum) :=
    mapOpt_eq_map fun w _ => jsDiv_of_ne w hsumne
  have hsizes : mapOpt
        (fun p => jsDiv (inv.totalInvestment * inv.leverage * p.2) p.1.price)
        (levels.zip (((List.range levels.length).map (triW levels.length)).map
          fun w => w / ((List.range levels.length).map (triW levels.length)).sum)) =
      some ((levels.zip (((List.range levels.length).map (triW levels.length)).map
          fun w => w / ((List.range levels.length).map (triW levels.length)).sum)).map
        fun p => inv.totalInvestment * inv.leverage * p.2 / p.1.price) :=
    mapOpt_eq_map fun p hpmem => jsDiv_of_ne _ (hp p.1 (List.of_mem_zip hpmem).1)
  refine ⟨(levels.zip (((List.range levels.length).map (triW levels.length)).map
      fun w => w / ((List.range levels.length).map (triW levels.length)).sum)).map
        fun p => inv.totalInvestment * inv.leverage * p.2 / p.1.price, ?_, ?_, ?_, ?_⟩
  · simp only [calculateWeightedAllocation]
    rw [hw]
    simp only [Option.bind_some, Option.some_bind]
    rw [hnorm]
    simp only [Option.bind_some, Option.some_bind]
    rw [hsizes]
    rfl
  · simp [List.length_zip]
  · have hlt : 0 < (levels.zip (((List.range levels.length).map (triW levels.length)).map
        fun w => w / ((List.range levels.length).map (triW levels.length)).sum)).length := by
      simp [List.length_zip]
      omega
    rw [List.getElem?_eq_getElem (by simpa using hlt)]
    simp only [List.getElem_map, List.getElem_zip, List.getElem_range]
    rw [triW_zero]
    simp
  · have hlen : (levels.zip (((List.range levels.length).map (triW levels.length)).map
        fun w => w / ((List.range levels.length).map (triW levels.length)).sum)).length =
        levels.length := by
      simp [List.length_zip]
    have hlt : levels.length - 1 < (levels.zip (((List.range levels.length).map
        (triW levels.length)).map
        fun w => w / ((List.range levels.length).map (triW levels.length)).sum)).length := by
      omega
    rw [List.getElem?_eq_getElem (by simpa using hlt)]
    simp only [List.getElem_map, List.getElem_zip, List.getElem_range]
    rw [triW_last levels.length hn2]
    simp

/-- Witness for C9: investment 1000 at leverage 1 on the five-level ladder
90, 95, 100, 105, 110. -/
theorem C9_witness :
    ∃ bs, calculateWeightedAllocation invEx ladderLevels = some (bs, bs) ∧
      bs.length = ladderLevels.length ∧ bs[0]? = some 0 ∧
      bs[ladderLevels.length - 1]? = some 0 :=
  C9_weighted_edges_get_zero invEx ladderLevels (by simp [ladderLevels])
    (by norm_num [ladderLevels, bareLevel])

theorem closestLevel_mem (p : ℚ) :
    ∀ (rest : List GridLevel) (first : GridLevel), closestLevel p first rest ∈ first :: rest := by
  intro rest
  induction rest with
  | nil => intro first; simp [closestLevel]
  | cons b t ih =>
    intro first
    unfold closestLevel
    rw [List.foldl_cons]
    by_cases h : |p - b.price| < |p - first.price|
    · rw [if_pos h]
      have := ih b
      unfold closestLevel at this
      rcases List.mem_cons.mp this with h2 | h2
      · rw [h2]; simp
      · simp [h2]
    · rw [if_neg h]
      have := ih first
      unfold closestLevel at this
      rcases List.mem_cons.mp this with h2 | h2
      · rw [h2]; simp
      · simp [h2]

theorem closestLevel_min (p : ℚ) :
    ∀ (rest : List GridLevel) (first : GridLevel), ∀ lv ∈ first :: rest,
      |p - (closestLevel p first rest).price| ≤ |p - lv.price| := by
  intro rest
  induction rest with
  | nil =>
    intro first lv hlv
    rcases List.mem_cons.mp hlv with h | h
    · rw [h]; simp [closestLevel]
    · simp at h
  | cons b t ih =>
    intro first lv hlv
    unfold closestLevel
    rw [List.foldl_cons]
    by_cases h : |p - b.price| < |p - first.price|
    · rw [if_pos h]
      rcases List.mem_cons.mp hlv with h2 | h2
      · have hb := ih b b (by simp)
        unfold closestLevel at hb
        rw [h2]
        exact le_trans hb (le_of_lt h)
      · exact ih b lv h2
    · rw [if_neg h]
      rcases List.mem_cons.mp hlv with h2 | h2
      · rw [h2]; exact ih first first (by simp)
      · rcases List.mem_cons.mp h2 with h3 | h3
        · have hf := ih first first (by simp)
          rw [h3]
          exact le_trans hf (le_of_not_lt h)
        · exact ih first lv (by simp [h3])

theorem countP_price_eq_one {levels : List GridLevel} {c : GridLevel} (hc : c ∈ levels)
    (hdist : levels.Pairwise fun a b => a.price ≠ b.price) :
    levels.countP (fun lv => lv.price == c.price) = 1 := by
  obtain ⟨s, t, rfl⟩ := List.append_of_mem hc
  rw [List.countP_append, List.countP_cons]
  have hmid := (List.pairwise_append.mp hdist).2.2
  have hct := (List.pairwise_cons.mp (List.pairwise_append.mp hdist).2.1).1
  have hs : s.countP (fun lv => lv.price == c.price) = 0 := by
    rw [List.countP_eq_zero]
    intro x hx
    simp only [beq_iff_eq]
    exact hmid x hx c (by simp)
  have ht : t.countP (fun lv => lv.price == c.price) = 0 := by
    rw [List.countP_eq_zero]
    intro x hx
    simp only [beq_iff_eq]
    exact fun he => hct x hx he.symm
  simp [hs, ht]

/-- Claim C4: the spec says `updateGridLevels` marks exactly one level
inactive for every non-empty level list.  With two levels sharing one price
the code marks both inactive, because the activity test compares prices, not
identities. -/
theorem C4_counterexample :
    ¬ (updateGridLevels duplicatePriceLevels 100).countP (fun lv => !lv.isActive) = 1 := by
  have : updateGridLevels duplicatePriceLevels 100 =
      [ { bareLevel 100 with isActive := false }, { bareLevel 100 with isActive := false } ] := by
    simp [updateGridLevels, closestLevel, duplicatePriceLevels, bareLevel]
  rw [this]
  simp [List.countP_cons]

/-- Claim C4 (amended): for every non-empty list of grid levels with
pairwise distinct prices and every supplied price, `updateGridLevels` leaves
all level prices unchanged, marks exactly one level inactive, and the
inactive level has minimum absolute price distance to the supplied price. -/
theorem C4_unique_nearest_inactive (p : ℚ) (first : GridLevel) (rest : List GridLevel)
    (hdist : (first :: rest).Pairwise fun a b => a.price ≠ b.price) :
    ((updateGridLevels (first :: rest) p).map (fun lv => lv.price) =
        (first :: rest).map fun lv => lv.price)
    ∧ (updateGridLevels (first :: rest) p).countP (fun lv => !lv.isActive) = 1
    ∧ ∀ lv ∈ updateGridLevels (first :: rest) p, lv.isActive = false →
        ∀ lv2 ∈ first :: rest, |p - lv.price| ≤ |p - lv2.price| := by
  refine ⟨?_, ?_, ?_⟩
  · simp only [updateGridLevels, List.map_map]
    rfl
  · simp only [updateGridLevels, List.countP_map]
    have he : ((fun lv => !lv.isActive) ∘ fun lv =>
        { lv with isActive := lv.price != (closestLevel p first rest).price }) =
        fun lv : GridLevel => lv.price == (closestLevel p first rest).price := by
      funext lv
      simp [bne]
    rw [he]
    exact countP_price_eq_one (closestLevel_mem p rest first) hdist
  · intro lv hlv hinactive lv2 hlv2
    simp only [updateGridLevels, List.mem_map] at hlv
    obtain ⟨lv0, hlv0, rfl⟩ := hlv
    simp only [bne_eq_false_iff_eq] at hinactive
    have : |p - lv0.price| ≤ |p - lv2.price| := by
      rw [show lv0.price = (closestLevel p first rest).price from hinactive]
      exact closestLevel_min p rest first lv2 hlv2
    simpa using this

/-- Witness for C4: the five-level ladder at supplied price 101. -/
theorem C4_witness :
    ((updateGridLevels ladderLevels 101).map (fun lv => lv.price) =
        ladderLevels.map fun lv => lv.price)
    ∧ (updateGridLevels ladderLevels 101).countP (fun lv => !lv.isActive) = 1
    ∧ ∀ lv ∈ updateGridLevels ladderLevels 101, lv.isActive = false →
        ∀ lv2 ∈ ladderLevels, |101 - lv.price| ≤ |101 - lv2.price| :=
  C4_unique_nearest_inactive 101 (bareLevel 90)
    [bareLevel 95, bareLevel 100, bareLevel 105, bareLevel 110]
    (by norm_num [bareLevel, List.pairwise_cons])

/-- Claim C7: the spec says that immediately after generation exactly the
level nearest the current price is inactive.  The generator instead compares
each level price for exact equality with the current price, so when no level
sits exactly on the current price — here a linear 90..110 five-level grid at
current price 101 — every generated level is active. -/
theorem C7_counterexample :
    (generateLinearGrid gridCfgLinear5 101).length = 5 ∧
    ∀ lv ∈ generateLinearGrid gridCfgLinear5 101, lv.isActive = true := by
  constructor
  · simp [generateLinearGrid]
    rfl
  · intro lv hlv
    unfold generateLinearGrid at hlv
    obtain ⟨i, hi, rfl⟩ := List.mem_map.mp hlv
    have hi5 : i < 5 := by
      have h2 := List.mem_range.mp hi
      simpa [gridCfgLinear5] using h2
    show (_ != _) = true
    rw [bne_iff_ne]
    simp only [gridCfgLinear5]
    interval_cases i <;> norm_num

/-- Claim C7 (amended): immediately after linear generation a level is
inactive precisely when its price exactly equals the current price; in
particular when no generated price equals the current price, every level is
active. -/
theorem C7_inactive_iff_exact_price (cfg : GridConfig) (p : ℚ) :
    (∀ lv ∈ generateLinearGrid cfg p, (lv.isActive = false ↔ lv.price = p))
    ∧ ((∀ lv ∈ generateLinearGrid cfg p, lv.price ≠ p) →
        ∀ lv ∈ generateLinearGrid cfg p, lv.isActive = true) := by
  have hmain : ∀ lv ∈ generateLinearGrid cfg p, (lv.isActive = false ↔ lv.price = p) := by
    intro lv hlv
    unfold generateLinearGrid at hlv
    obtain ⟨i, _, rfl⟩ := List.mem_map.mp hlv
    simp [bne_eq_false_iff_eq]
  refine ⟨hmain, fun hne lv hlv => ?_⟩
  have h1 := hmain lv hlv
  have h2 := hne lv hlv
  cases hact : lv.isActive with
  | false => exact absurd (h1.mp hact) h2
  | true => rfl

/-- Witness for C7: the linear 90..110 five-level grid at current price
100 — the level at exactly 100 is the inactive one. -/
theorem C7_witness :
    ∀ lv ∈ generateLinearGrid gridCfgLinear5 100, (lv.isActive = false ↔ lv.price = 100) :=
  (C7_inactive_iff_exact_price gridCfgLinear5 100).1

theorem updateStopLoss_eq_trailing (cfg : RiskManagementConfig) (rs : RiskState)
    (ts : TradingState) (h : cfg.trailingStopLoss.enabled = true) :
    ∃ rs2 : RiskState, updateStopLoss cfg rs ts = updateTrailingStopLoss cfg rs2 ts.currentPrice ∧
      rs2.trailingStopPrice = rs.trailingStopPrice ∧ rs2.initialPrice = rs.initialPrice := by
  simp only [updateStopLoss, h, if_true]
  refine ⟨_, rfl, ?_, ?_⟩ <;> split_ifs <;> rfl

theorem updateStopLoss_trailing_disabled (cfg : RiskManagementConfig) (rs : RiskState)
    (ts : TradingState) (h : cfg.trailingStopLoss.enabled = false) :
    (updateStopLoss cfg rs ts).trailingStopPrice = rs.trailingStopPrice := by
  simp only [updateStopLoss, h, Bool.false_eq_true, if_false]
  split_ifs <;> rfl

theorem trailingOverrideStep_trailing (rs1 : RiskState) :
    (trailingOverrideStep rs1).trailingStopPrice = rs1.trailingStopPrice := by
  obtain ⟨ip, slp, tsp, cpf⟩ := rs1
  cases tsp <;> cases slp <;> simp [trailingOverrideStep] <;> split_ifs <;> rfl

theorem trailingCandidateStep_of_none (cfg : RiskManagementConfig) (rs : RiskState) (p : ℚ)
    (hnone : rs.trailingStopPrice = none) :
    (trailingCandidateStep cfg rs p).trailingStopPrice =
      (if cfg.trailingStopLoss.activationThreshold ≤ (p / rs.initialPrice - 1) * 100
        then some (p * (1 - cfg.trailingStopLoss.trailingDistance / 100)) else none) := by
  obtain ⟨ip, slp, tsp, cpf⟩ := rs
  cases tsp with
  | some t => exact absurd hnone (by simp)
  | none =>
    by_cases hact : cfg.trailingStopLoss.activationThreshold ≤ (p / ip - 1) * 100
    · simp [trailingCandidateStep, hact]
    · simp [trailingCandidateStep, hact]

theorem trailingCandidateStep_of_some (cfg : RiskManagementConfig) (rs : RiskState) (p : ℚ)
    (t : ℚ) (h : rs.trailingStopPrice = some t) :
    (trailingCandidateStep cfg rs p).trailingStopPrice = some t ∨
    ((trailingCandidateStep cfg rs p).trailingStopPrice =
        some (p * (1 - cfg.trailingStopLoss.trailingDistance / 100)) ∧
      t < p * (1 - cfg.trailingStopLoss.trailingDistance / 100)) := by
  obtain ⟨ip, slp, tsp, cpf⟩ := rs
  cases tsp with
  | none => exact absurd h (by simp)
  | some t0 =>
    have ht : t0 = t := by simpa using h
    subst ht
    by_cases hact : cfg.trailingStopLoss.activationThreshold ≤ (p / ip - 1) * 100
    · by_cases hlt : t0 < p * (1 - cfg.trailingStopLoss.trailingDistance / 100)
      · exact Or.inr ⟨by simp [trailingCandidateStep, hact, hlt], hlt⟩
      · exact Or.inl (by simp [trailingCandidateStep, hact, hlt])
    · exact Or.inl (by simp [trailingCandidateStep, hact])

theorem updateTrailingStopLoss_of_none (cfg : RiskManagementConfig) (rs : RiskState) (p : ℚ)
    (hnone : rs.trailingStopPrice = none) :
    ((updateTrailingStopLoss cfg rs p).trailingStopPrice ≠ none ↔
      cfg.trailingStopLoss.activationThreshold ≤ (p / rs.initialPrice - 1) * 100) := by
  rw [show updateTrailingStopLoss cfg rs p =
      trailingOverrideStep (trailingCandidateStep cfg rs p) from rfl,
    trailingOverrideStep_trailing, trailingCandidateStep_of_none cfg rs p hnone]
  by_cases hact : cfg.trailingStopLoss.activationThreshold ≤ (p / rs.initialPrice - 1) * 100
  · simp [hact]
  · simp [hact]

theorem updateTrailingStopLoss_of_some (cfg : RiskManagementConfig) (rs : RiskState) (p : ℚ)
    (t : ℚ) (h : rs.trailingStopPrice = some t) :
    (updateTrailingStopLoss cfg rs p).trailingStopPrice = some t ∨
    ((updateTrailingStopLoss cfg rs p).trailingStopPrice =
        some (p * (1 - cfg.trailingStopLoss.trailingDistance / 100)) ∧
      t < p * (1 - cfg.trailingStopLoss.trailingDistance / 100)) := by
  rw [show updateTrailingStopLoss cfg rs p =
      trailingOverrideStep (trailingCandidateStep cfg rs p) from rfl,
    trailingOverrideStep_trailing]
  exact trailingCandidateStep_of_some cfg rs p t h

/-- Claim C3: the spec ties trailing-stop activation to unrealized profit
reaching the activation threshold.  The code instead activates on the price
appreciation percentage over the initial reference price: a state with
unrealized profit 1000 (far above the threshold 1) but an unmoved price
leaves the trailing stop price null after `updateStopLoss`. -/
theorem C3_counterexample :
    riskCfgTrailing.trailingStopLoss.enabled = true ∧
    riskCfgTrailing.trailingStopLoss.activationThreshold ≤ tsProfitNoMove.unrealizedPnL ∧
    (updateStopLoss riskCfgTrailing riskStFresh tsProfitNoMove).trailingStopPrice = none := by
  refine ⟨rfl, by norm_num [riskCfgTrailing, tsProfitNoMove], ?_⟩
  have hact : ¬ riskCfgTrailing.trailingStopLoss.activationThreshold ≤
      (tsProfitNoMove.currentPrice / riskStFresh.initialPrice - 1) * 100 := by
    norm_num [riskCfgTrailing, tsProfitNoMove, riskStFresh]
  obtain ⟨rs2, heq, htrail, hinit⟩ :=
    updateStopLoss_eq_trailing riskCfgTrailing riskStFresh tsProfitNoMove rfl
  rw [heq]
  by_contra hne
  have h2 := (updateTrailingStopLoss_of_none riskCfgTrailing rs2 tsProfitNoMove.currentPrice
    (htrail.trans rfl)).mp hne
  rw [hinit] at h2
  exact hact h2

/-- Claim C3 (amended): with the trailing stop-loss enabled and no trailing
stop yet set, a call to `updateStopLoss` sets a non-null trailing stop price
exactly when the price-appreciation percentage
`((currentPrice / initialPrice) - 1) * 100` reaches the activation
threshold; the trading state's unrealized profit plays no role in the
activation decision. -/
theorem C3_trailing_activates_on_price_appreciation (cfg : RiskManagementConfig)
    (rs : RiskState) (ts : TradingState) (henabled : cfg.trailingStopLoss.enabled = true)
    (hnone : rs.trailingStopPrice = none) :
    ((updateStopLoss cfg rs ts).trailingStopPrice ≠ none ↔
      cfg.trailingStopLoss.activationThreshold ≤
        (ts.currentPrice / rs.initialPrice - 1) * 100) := by
  obtain ⟨rs2, heq, htrail, hinit⟩ := updateStopLoss_eq_trailing cfg rs ts henabled
  rw [heq, updateTrailingStopLoss_of_none cfg rs2 ts.currentPrice (htrail.trans hnone), hinit]

/-- Witness for C3: trailing config with threshold 1, fresh state anchored
at 100, current price 110 — a 10% appreciation activates the trailing
stop. -/
theorem C3_witness :
    (updateStopLoss riskCfgTrailing riskStFresh tsPrice110).trailingStopPrice ≠ none ↔
      riskCfgTrailing.trailingStopLoss.activationThreshold ≤
        (tsPrice110.currentPrice / riskStFresh.initialPrice - 1) * 100 :=
  C3_trailing_activates_on_price_appreciation riskCfgTrailing riskStFresh tsPrice110 rfl rfl

/-- Claim C6: once the trailing stop price is set, every `updateStopLoss`
call either leaves it unchanged or strictly raises it to the candidate
`currentPrice * (1 - trailingDistance / 100)` — the trailing stop is a
ratchet and never decreases. -/
theorem C6_trailing_stop_ratchet (cfg : RiskManagementConfig) (rs : RiskState)
    (ts : TradingState) (t : ℚ) (h : rs.trailingStopPrice = some t) :
    ∃ t2, (updateStopLoss cfg rs ts).trailingStopPrice = some t2 ∧ t ≤ t2 ∧
      (t2 = t ∨ (t < t2 ∧
        t2 = ts.currentPrice * (1 - cfg.trailingStopLoss.trailingDistance / 100))) := by
  cases henabled : cfg.trailingStopLoss.enabled with
  | false =>
    refine ⟨t, ?_, le_refl t, Or.inl rfl⟩
    rw [updateStopLoss_trailing_disabled cfg rs ts henabled, h]
  | true =>
    obtain ⟨rs2, heq, htrail, _⟩ := updateStopLoss_eq_trailing cfg rs ts henabled
    rw [heq]
    rcases updateTrailingStopLoss_of_some cfg rs2 ts.currentPrice t (htrail.trans h) with
      h2 | ⟨h2, hlt⟩
    · exact ⟨t, h2, le_refl t, Or.inl rfl⟩
    · exact ⟨_, h2, le_of_lt hlt, Or.inr ⟨hlt, rfl⟩⟩

/-- Witness for C6: an activated trailing stop at 97 with the price at
110 — the call raises the trailing stop to `110 * 0.98 = 107.8`. -/
theorem C6_witness :
    ∃ t2, (updateStopLoss riskCfgTrailing riskStActive tsPrice110).trailingStopPrice =
        some t2 ∧ (97 : ℚ) ≤ t2 ∧
      (t2 = 97 ∨ ((97 : ℚ) < t2 ∧
        t2 = tsPrice110.currentPrice *
          (1 - riskCfgTrailing.trailingStopLoss.trailingDistance / 100))) :=
  C6_trailing_stop_ratchet riskCfgTrailing riskStActive tsPrice110 97 rfl

/-- Claim C8: the spec says every enabled stop-loss variant requires
strictly positive fields, activation threshold included.  The code rejects
only a strictly negative trailing activation threshold, so a configuration
with trailing stop-loss enabled and `activationThreshold = 0` — failing the
claim's strict-positivity requirement — passes validation. -/
theorem C8_counterexample :
    validateConfig botCfgTrailingZero = Except.ok () ∧
    botCfgTrailingZero.riskManagement.trailingStopLoss.enabled = true ∧
    botCfgTrailingZero.riskManagement.trailingStopLoss.activationThreshold ≤ 0 := by
  refine ⟨?_, rfl, by norm_num [botCfgTrailingZero]⟩
  have hne : AllocationMethod.equal ≠ AllocationMethod.custom := by decide
  norm_num [validateConfig, botCfgTrailingZero, hne]

/-- Claim C8 (amended): for configurations passing the grid-count, leverage,
bounds and custom-pattern checks, `validateConfig` succeeds iff every
enabled stop-loss field passes its sign check: basic percentage and the
three dynamic fields and the trailing distance must be strictly positive,
while the trailing activation threshold must only be non-negative
(`activationThreshold = 0` is accepted). -/
theorem C8_stoploss_validation (cfg : TradingBotConfig)
    (h1 : 5 ≤ cfg.grid.numberOfGrids) (h2 : cfg.grid.numberOfGrids ≤ 200)
    (h3 : 1 ≤ cfg.investment.leverage) (h4 : cfg.investment.leverage ≤ 100)
    (h5 : cfg.grid.autoRange = false →
      cfg.grid.lowerBound < cfg.grid.upperBound ∧ 0 < cfg.grid.lowerBound)
    (h6 : cfg.order.allocationMethod = .custom →
      ∃ pat, cfg.order.customAllocationPattern = some pat ∧ pat.length ≠ 0 ∧
        pat.length = cfg.grid.numberOfGrids) :
    (validateConfig cfg = Except.ok () ↔
      ((cfg.riskManagement.basicStopLoss.enabled = true →
          0 < cfg.riskManagement.basicStopLoss.percentage)
        ∧ (cfg.riskManagement.dynamicStopLoss.enabled = true →
          0 < cfg.riskManagement.dynamicStopLoss.initialRiskThreshold ∧
          0 < cfg.riskManagement.dynamicStopLoss.expansionFactor ∧
          0 < cfg.riskManagement.dynamicStopLoss.maximumExpansion)
        ∧ (cfg.riskManagement.trailingStopLoss.enabled = true →
          0 < cfg.riskManagement.trailingStopLoss.trailingDistance ∧
          0 ≤ cfg.riskManagement.trailingStopLoss.activationThreshold))) := by
  unfold validateConfig
  rw [if_neg (by omega), if_neg (by omega), if_neg (by simpa using h3),
    if_neg (by simpa using h4)]
  rw [if_neg (fun hb => absurd (h5 hb.1).1 (not_lt.mpr hb.2))]
  rw [if_neg (fun hb => absurd (h5 hb.1).2 (not_lt.mpr hb.2))]
  rw [if_neg (fun hb => by
    obtain ⟨pat, hpat, hlen0, _⟩ := h6 hb.1
    rcases hb.2 with hmiss | hempty
    · rw [hpat] at hmiss
      exact Option.noConfusion hmiss
    · rw [hpat] at hempty
      simp only [Option.any_some] at hempty
      exact hlen0 (by simpa using hempty))]
  rw [if_neg (fun hb => by
    obtain ⟨pat, hpat, _, hlen⟩ := h6 hb.1
    apply hb.2
    rw [hpat]
    simpa using hlen)]
  constructor
  · intro hok
    by_cases hc1 : cfg.riskManagement.basicStopLoss.enabled = true ∧
        cfg.riskManagement.basicStopLoss.percentage ≤ 0
    · rw [if_pos hc1] at hok
      exact absurd hok (by simp)
    rw [if_neg hc1] at hok
    by_cases hc2 : cfg.riskManagement.dynamicStopLoss.enabled = true ∧
        cfg.riskManagement.dynamicStopLoss.initialRiskThreshold ≤ 0
    · rw [if_pos hc2] at hok
      exact absurd hok (by simp)
    rw [if_neg hc2] at hok
    by_cases hc3 : cfg.riskManagement.dynamicStopLoss.enabled = true ∧
        cfg.riskManagement.dynamicStopLoss.expansionFactor ≤ 0
    · rw [if_pos hc3] at hok
      exact absurd hok (by simp)
    rw [if_neg hc3] at hok
    by_cases hc4 : cfg.riskManagement.dynamicStopLoss.enabled = true ∧
        cfg.riskManagement.dynamicStopLoss.maximumExpansion ≤ 0
    · rw [if_pos hc4] at hok
      exact absurd hok (by simp)
    rw [if_neg hc4] at hok
    by_cases hc5 : cfg.riskManagement.trailingStopLoss.enabled = true ∧
        cfg.riskManagement.trailingStopLoss.trailingDistance ≤ 0
    · rw [if_pos hc5] at hok
      exact absurd hok (by simp)
    rw [if_neg hc5] at hok
    by_cases hc6 : cfg.riskManagement.trailingStopLoss.enabled = true ∧
        cfg.riskManagement.trailingStopLoss.activationThreshold < 0
    · rw [if_pos hc6] at hok
      exact absurd hok (by simp)
    exact ⟨fun hb => not_le.mp fun hle => hc1 ⟨hb, hle⟩,
      fun hd => ⟨not_le.mp fun hle => hc2 ⟨hd, hle⟩,
        not_le.mp fun hle => hc3 ⟨hd, hle⟩,
        not_le.mp fun hle => hc4 ⟨hd, hle⟩⟩,
      fun htr => ⟨not_le.mp fun hle => hc5 ⟨htr, hle⟩,
        not_lt.mp fun hlt => hc6 ⟨htr, hlt⟩⟩⟩
  · intro ⟨hb, hd, htr⟩
    rw [if_neg (fun hx : _ ∧ _ => absurd (hb hx.1) (not_lt.mpr hx.2))]
    rw [if_neg (fun hx : _ ∧ _ => absurd (hd hx.1).1 (not_lt.mpr hx.2))]
    rw [if_neg (fun hx : _ ∧ _ => absurd (hd hx.1).2.1 (not_lt.mpr hx.2))]
    rw [if_neg (fun hx : _ ∧ _ => absurd (hd hx.1).2.2 (not_lt.mpr hx.2))]
    rw [if_neg (fun hx : _ ∧ _ => absurd (htr hx.1).1 (not_lt.mpr hx.2))]
    rw [if_neg (fun hx : _ ∧ _ => absurd (htr hx.1).2 (not_le.mpr hx.2))]

/-- Witness for C8: the all-enabled default-style configuration with
positive fields and activation threshold 0 — the validation iff applied to
`botCfgTrailingZero`. -/
theorem C8_witness :
    validateConfig botCfgTrailingZero = Except.ok () ↔
      ((botCfgTrailingZero.riskManagement.basicStopLoss.enabled = true →
          0 < botCfgTrailingZero.riskManagement.basicStopLoss.percentage)
        ∧ (botCfgTrailingZero.riskManagement.dynamicStopLoss.enabled = true →
          0 < botCfgTrailingZero.riskManagement.dynamicStopLoss.initialRiskThreshold ∧
          0 < botCfgTrailingZero.riskManagement.dynamicStopLoss.expansionFactor ∧
          0 < botCfgTrailingZero.riskManagement.dynamicStopLoss.maximumExpansion)
        ∧ (botCfgTrailingZero.riskManagement.trailingStopLoss.enabled = true →
          0 < botCfgTrailingZero.riskManagement.trailingStopLoss.trailingDistance ∧
          0 ≤ botCfgTrailingZero.riskManagement.trailingStopLoss.activationThreshold)) :=
  C8_stoploss_validation botCfgTrailingZero (by decide) (by decide)
    (by norm_num [botCfgTrailingZero]) (by norm_num [botCfgTrailingZero])
    (fun hfalse => absurd hfalse (by decide))
    (fun hcustom => absurd hcustom (by decide))

theorem mem_of_getLast_opt {α : Type} {l : List α} {a : α} (h : l.getLast? = some a) :
    a ∈ l := by
  obtain ⟨ys, rfl⟩ := List.getLast?_eq_some_iff.mp h
  simp

theorem realizedPnLDelta_eq_zero (ledger filledOrders : List GridOrder) :
    realizedPnLDelta ledger filledOrders = 0 := by
  unfold realizedPnLDelta
  apply List.sum_eq_zero
  intro x hx
  obtain ⟨fo, _, rfl⟩ := List.mem_map.mp hx
  cases hlast : (ledger.filter fun o =>
      o.price == fo.price && !(o.side == fo.side)).getLast? with
  | none => simp [hlast]
  | some opp =>
    have hmem := mem_of_getLast_opt hlast
    have hpred := List.of_mem_filter hmem
    have hprice : opp.price = fo.price := by
      have := (Bool.and_eq_true _ _).mp hpred
      exact beq_iff_eq.mp this.1
    simp only [hlast]
    split_ifs <;> simp [hprice]

theorem recordTradeProfit_eq_zero (ledger : List GridOrder) (order : GridOrder) :
    recordTradeProfit ledger order = 0 := by
  unfold recordTradeProfit
  cases hlast : (ledger.filter fun o =>
      o.price == order.price && !(o.side == order.side)).getLast? with
  | none => simp [hlast]
  | some opp =>
    have hmem := mem_of_getLast_opt hlast
    have hpred := List.of_mem_filter hmem
    have hprice : opp.price = order.price := by
      have := (Bool.and_eq_true _ _).mp hpred
      exact beq_iff_eq.mp this.1
    simp only [hlast]
    split_ifs <;> simp [hprice]

theorem placeOppositeOrders_trades_zero (place : GridOrder → Option String) (now : ℕ)
    (ledger : List GridOrder) :
    ∀ (fos : List GridOrder) (levels : List GridLevel) (newOrders : List GridOrder)
      (trades : List HistoricalTrade), (∀ t ∈ trades, t.profit = 0) →
      ∀ t ∈ (placeOppositeOrders place now ledger fos levels newOrders trades).2.2,
        t.profit = 0 := by
  intro fos
  induction fos with
  | nil => intro levels newOrders trades h t ht; exact h t ht
  | cons fo rest ih =>
    intro levels newOrders trades h t ht
    simp only [placeOppositeOrders] at ht
    split at ht
    · exact ih _ _ _ h t ht
    · split at ht
      · exact ih _ _ _ h t ht
      · split at ht
        · exact ih _ _ _ h t ht
        · refine ih _ _ _ ?_ t ht
          intro t2 ht2
          rcases List.mem_append.mp ht2 with h2 | h2
          · exact h t2 h2
          · rw [List.mem_singleton.mp h2]
            exact recordTradeProfit_eq_zero ledger fo

theorem processFilledOrders_invariant (place : GridOrder → Option String) (now : ℕ)
    (st : TradingState) (trades : List HistoricalTrade) (filled : List GridOrder)
    (h1 : st.realizedPnL = 0) (h2 : ∀ t ∈ trades, t.profit = 0) :
    (processFilledOrders place now st trades filled).1.realizedPnL = 0 ∧
    ∀ t ∈ (processFilledOrders place now st trades filled).2, t.profit = 0 := by
  unfold processFilledOrders
  constructor
  · show st.realizedPnL + realizedPnLDelta (st.filledOrders ++ filled) filled = 0
    rw [h1, realizedPnLDelta_eq_zero, add_zero]
  · intro t ht
    rcases List.mem_append.mp ht with h3 | h3
    · exact h2 t h3
    · exact placeOppositeOrders_trades_zero place now (st.filledOrders ++ filled) filled
        st.gridLevels [] [] (by simp) t h3

theorem updateMarketData_invariant (price : ℚ) (fill : String → Bool)
    (place : GridOrder → Option String) (now : ℕ) (es : EngineState)
    (h1 : es.tradingState.realizedPnL = 0) (h2 : ∀ t ∈ es.historicalTrades, t.profit = 0) :
    (updateMarketData price fill place now es).tradingState.realizedPnL = 0 ∧
      ∀ t ∈ (updateMarketData price fill place now es).historicalTrades, t.profit = 0 := by
  unfold updateMarketData
  cases hempty : (checkOrderFills fill
      { es.tradingState with currentPrice := price }.activeOrders).isEmpty with
  | true =>
    simp only [hempty, if_true]
    exact ⟨h1, h2⟩
  | false =>
    simp only [hempty, Bool.false_eq_true, if_false]
    exact processFilledOrders_invariant place now
      { es.tradingState with currentPrice := price } es.historicalTrades
      (checkOrderFills fill { es.tradingState with currentPrice := price }.activeOrders)
      h1 h2

theorem stepEngine_invariant (es : EngineState) (ev : EngineEvent)
    (h1 : es.tradingState.realizedPnL = 0) (h2 : ∀ t ∈ es.historicalTrades, t.profit = 0) :
    (stepEngine es ev).tradingState.realizedPnL = 0 ∧
      ∀ t ∈ (stepEngine es ev).historicalTrades, t.profit = 0 := by
  cases ev with
  | initOp price place =>
    exact ⟨h1, h2⟩
  | marketOp price fill place now =>
    exact updateMarketData_invariant price fill place now es h1 h2

/-- Claim C2: in every engine state reachable through `initialize` and
`updateMarketData` (which drives `processFilledOrders`), the realized P&L is
0 and every recorded historical trade has profit 0: the fill-pairing policy
only matches previously filled opposite-side orders at exactly the same
price, so every computed profit contribution `(price - price) * size`
vanishes. -/
theorem C2_realizedPnL_always_zero (es : EngineState) (evs : List EngineEvent)
    (h1 : es.tradingState.realizedPnL = 0) (h2 : ∀ t ∈ es.historicalTrades, t.profit = 0) :
    (runEngine es evs).tradingState.realizedPnL = 0 ∧
      ∀ t ∈ (runEngine es evs).historicalTrades, t.profit = 0 := by
  induction evs generalizing es with
  | nil => exact ⟨h1, h2⟩
  | cons ev rest ih =>
    have hstep := stepEngine_invariant es ev h1 h2
    exact ih (stepEngine es ev) hstep.1 hstep.2

/-- Witness for C2: a concrete two-cycle run in which the resting buy at 90
fills, an opposite sell is placed at the same level, and that sell fills in
the next cycle — realized P&L stays 0 and both recorded trades have
profit 0. -/
theorem C2_witness :
    (runEngine engineStart buyFillScript).tradingState.realizedPnL = 0 ∧
      ∀ t ∈ (runEngine engineStart buyFillScript).historicalTrades, t.profit = 0 :=
  C2_realizedPnL_always_zero engineStart buyFillScript rfl (by simp [engineStart])

end Gridbot
